import Mathlib

/-!
# Verification of `plot_loss.py` (modded-nanogpt loss-plotting tool)

Shallow embedding of `src/plot_loss.py`:

* `parse_log_file` embeds the Python function of the same name: it scans
  lines, applies `re.search` with the pattern
  `step:(\d+)/(\d+)\s+val_loss:([\d.]+)` and collects the parsed fields.
* `plot_loss` embeds the renderer as a pure description of its observable
  effects (messages printed, chart drawn, file saved, interactive display).
* `main_run` embeds the `main` orchestration over an explicit environment
  (file existence flag, file lines), with `sys.exit` codes made explicit.

Numbers: Python `int` on a digit group becomes `Nat` (the group `\d+` has
no sign), and Python `float` on a `[\d.]+` group is modelled exactly over
that group's character class: it succeeds iff the token has at most one
dot and at least one digit, returning the exact decimal value as a `Rat`.
Exceptions (`ValueError` from `float`) become `Except.error`.  CPython's
`float()` on an over-range token returns `inf` rather than raising, so a
second, overflow-aware model of the value domain (`pyFloatExt`,
`lineResultExt`, `parse_log_file_ext`) maps a token whose exact decimal
value reaches the double-overflow bound `2^1024 - 2^970` to `inf` and
every other accepted token to a finite value.

The regex is embedded as a maximal-munch matcher.  This is faithful
because adjacent pieces of the pattern have disjoint character classes:
`\d+` is followed by the literal `/` or by `\s` (not digits), `\s+` is
followed by the literal `v` (not whitespace), and `[\d.]+` is final, so
the greedy leftmost match of the Python `re` engine coincides with taking
maximal runs at the leftmost position where the whole pattern fits.
-/

/-- Python `\s` (ASCII fragment): space, tab, newline, carriage return,
vertical tab, form feed. -/
def isPySpace (c : Char) : Bool :=
  c = ' ' || c = '\t' || c = '\n' || c = '\r' || c = '\x0b' || c = '\x0c'

/-- Character class `[\d.]` of the third capture group. -/
def isNumDot (c : Char) : Bool :=
  c.isDigit || c = '.'

/-- Consume the literal `lit` from the front of `s`
(the regex's literal tokens `step:`, `/`, `val_loss:`). -/
def dropLit : List Char → List Char → Option (List Char)
  | [], s => some s
  | _ :: _, [] => none
  | c :: cs, d :: ds => if c = d then dropLit cs ds else none

/-- The three capture groups of `step:(\d+)/(\d+)\s+val_loss:([\d.]+)`. -/
structure Groups where
  g1 : List Char
  g2 : List Char
  g3 : List Char
deriving DecidableEq, Repr

/-- Match the pattern `step:(\d+)/(\d+)\s+val_loss:([\d.]+)` at the start
of `s`, returning the capture groups.  Each `+`-class is taken as a
maximal run, which coincides with the regex's greedy semantics here (see
the header comment). -/
def matchPat (s : List Char) : Option Groups :=
  match dropLit "step:".toList s with
  | none => none
  | some s1 =>
    let g1 := s1.takeWhile Char.isDigit
    if g1.isEmpty then none else
    match dropLit ['/'] (s1.dropWhile Char.isDigit) with
    | none => none
    | some s2 =>
      let g2 := s2.takeWhile Char.isDigit
      if g2.isEmpty then none else
      let s3 := s2.dropWhile Char.isDigit
      if (s3.takeWhile isPySpace).isEmpty then none else
      match dropLit "val_loss:".toList (s3.dropWhile isPySpace) with
      | none => none
      | some s4 =>
        let g3 := s4.takeWhile isNumDot
        if g3.isEmpty then none else
        some ⟨g1, g2, g3⟩

/-- `re.search`: try each start position from the left, returning the
offset of the first position where the pattern matches, with its groups. -/
def searchPos : List Char → Option (Nat × Groups)
  | [] =>
    match matchPat [] with
    | some g => some (0, g)
    | none => none
  | c :: rest =>
    match matchPat (c :: rest) with
    | some g => some (0, g)
    | none => (searchPos rest).map (fun p => (p.1 + 1, p.2))

/-- `pattern.search(line)`: the groups of the leftmost match, if any. -/
def searchPat (s : List Char) : Option Groups :=
  (searchPos s).map (fun p => p.2)

/-- Python `int` on a nonempty digit string. -/
def natOfDigits (s : List Char) : Nat :=
  s.foldl (fun a c => 10 * a + (c.toNat - '0'.toNat)) 0

/-- Exact value of a decimal token with at most one dot: integer part
plus fractional part over a power of ten, written as the single fraction
`(ip * 10^k + fp) / 10^k` (see `decValue_eq` for the sum-of-parts form). -/
def decValue (s : List Char) : ℚ :=
  let ip := s.takeWhile (fun c => c ≠ '.')
  let fp := (s.dropWhile (fun c => c ≠ '.')).drop 1
  Rat.divInt (natOfDigits ip * 10 ^ fp.length + natOfDigits fp) (10 ^ fp.length)

/-- Python `float` restricted to the strings the third group can produce
(nonempty, over `[0-9.]`): it parses iff the token has at most one dot
and at least one digit (`float("..")` and `float(".")` raise
`ValueError`), and then denotes the exact decimal value.  This
exact-rational model ignores that CPython returns `inf` on over-range
tokens; `pyFloatExt` below refines it with that overflow. -/
def pyFloat (s : List Char) : Option ℚ :=
  if s.count '.' ≤ 1 && s.any Char.isDigit then some (decValue s) else none

/-- One iteration of the parsing loop on a single line: no match is a
silent skip (`ok none`), a match parses `int(g1)`, `int(g2)`,
`float(g3)`, where a failing `float` raises (`error`). -/
def lineResult (line : List Char) : Except String (Option (Nat × Nat × ℚ)) :=
  match searchPat line with
  | none => .ok none
  | some g =>
    match pyFloat g.g3 with
    | none => .error "ValueError: could not convert string to float"
    | some v => .ok (some (natOfDigits g.g1, natOfDigits g.g2, v))

/-- `parse_log_file`: scan the lines in order, appending `step` and
`val_loss` of each matching line; a `ValueError` on any line aborts the
whole extraction with no result. -/
def parse_log_file : List (List Char) → Except String (List Nat × List ℚ)
  | [] => .ok ([], [])
  | l :: ls =>
    match lineResult l with
    | .error e => .error e
    | .ok none => parse_log_file ls
    | .ok (some (st, _tot, v)) =>
      match parse_log_file ls with
      | .error e => .error e
      | .ok (ss, vs) => .ok (st :: ss, v :: vs)

/-- The step extracted from a line, when the line yields a record. -/
def stepOf (l : List Char) : Option Nat :=
  match lineResult l with
  | .ok (some (st, _, _)) => some st
  | _ => none

/-- The loss extracted from a line, when the line yields a record. -/
def lossOf (l : List Char) : Option ℚ :=
  match lineResult l with
  | .ok (some (_, _, v)) => some v
  | _ => none

/-- The chart built by `plot_loss` when there is data: the plotted
series, the axis labels and the title. -/
structure Chart where
  xs : List Nat
  ys : List ℚ
  xlabel : String
  ylabel : String
  title : String
deriving DecidableEq, Repr

/-- Observable effects of one `plot_loss` call: lines printed, the chart
drawn (if any), the path written by `savefig` (if any), and whether
`plt.show()` was called. -/
structure RenderResult where
  printed : List String
  chart : Option Chart
  savedTo : Option String
  displayed : Bool
deriving DecidableEq, Repr

/-- Python `x or d` for an optional string `x`: `None` and `""` are
falsy, so both fall back to `d`. -/
def pyOrStr (x : Option String) (d : String) : String :=
  match x with
  | none => d
  | some s => if s = "" then d else s

/-- Default chart title used by `plot_loss`. -/
def defaultTitle : String := "Validation Loss Over Training"

/-- `plot_loss`: with no steps it prints a message and returns (no
figure, no write, no show); otherwise it draws the line chart and either
saves it to `output_file` or shows it interactively. -/
def plot_loss (steps : List Nat) (val_losses : List ℚ)
    (output_file : Option String) (title : Option String) : RenderResult :=
  if steps.isEmpty then
    { printed := ["No loss data found in log file!"]
      chart := none, savedTo := none, displayed := false }
  else
    let c : Chart :=
      { xs := steps, ys := val_losses
        xlabel := "Training Step", ylabel := "Validation Loss"
        title := pyOrStr title defaultTitle }
    match output_file with
    | some f =>
      { printed := ["Plot saved to " ++ f]
        chart := some c, savedTo := some f, displayed := false }
    | none =>
      { printed := [], chart := some c, savedTo := none, displayed := true }

/-- Python `min` over a nonempty list, fed as head and tail. -/
def listMin {α : Type} [Min α] (x : α) (xs : List α) : α :=
  xs.foldl Min.min x

/-- Python `max` over a nonempty list, fed as head and tail. -/
def listMax {α : Type} [Max α] (x : α) (xs : List α) : α :=
  xs.foldl Max.max x

/-- The summary statistics `main` prints before rendering: record count,
step range and loss range. -/
structure Summary where
  count : Nat
  minStep : Nat
  maxStep : Nat
  minLoss : ℚ
  maxLoss : ℚ
deriving DecidableEq, Repr

/-- The statistics of the extracted series, defined (as in the source)
only when the series is nonempty (`min([])` would raise). -/
def summaryStats (steps : List Nat) (losses : List ℚ) : Option Summary :=
  match steps, losses with
  | s :: ss, v :: vs =>
    some ⟨(s :: ss).length, listMin s ss, listMax s ss, listMin v vs, listMax v vs⟩
  | _, _ => none

/-- Observable outcome of one `main` run: the exit status, the messages
printed, the summary statistics computed (when reached) and the renderer
call's outcome (when reached). -/
structure MainResult where
  exitCode : Nat
  printed : List String
  summary : Option Summary
  render : Option RenderResult
deriving DecidableEq, Repr

/-- `main`, over an explicit environment: whether the log path exists and
the lines the file holds.  A missing path prints a diagnostic naming the
path and exits 1; an empty extraction prints diagnostics and exits 1
without rendering; otherwise the statistics are reported, the renderer is
invoked and the process ends with status 0.  An uncaught `ValueError`
from the extraction propagates as `error`. -/
def main_run (fileExists : Bool) (log_file : String) (lines : List (List Char))
    (output : Option String) (title : Option String) : Except String MainResult :=
  if !fileExists then
    .ok { exitCode := 1
          printed := ["Error: Log file not found: " ++ log_file]
          summary := none, render := none }
  else
    match parse_log_file lines with
    | .error e => .error e
    | .ok (steps, val_losses) =>
      if steps.isEmpty then
        .ok { exitCode := 1
              printed := ["Parsing log file: " ++ log_file,
                          "No validation loss data found in the log file.",
                          "Make sure the training has run validation steps."]
              summary := none, render := none }
      else
        .ok { exitCode := 0
              printed := ["Parsing log file: " ++ log_file,
                          "Found " ++ toString steps.length ++ " validation loss measurements"]
              summary := summaryStats steps val_losses
              render := some (plot_loss steps val_losses output title) }

/-- Projection used to state facts about the summary a run reports. -/
def mainSummary (r : Except String MainResult) : Option Summary :=
  match r with
  | .ok m => m.summary
  | .error _ => none

/-- `Except` success test. -/
def exceptOk {ε α : Type} (r : Except ε α) : Bool :=
  match r with
  | .ok _ => true
  | .error _ => false

instance {ε α : Type} [DecidableEq ε] [DecidableEq α] : DecidableEq (Except ε α) := fun x y =>
  match x, y with
  | .ok a, .ok b =>
    if h : a = b then isTrue (h ▸ rfl) else isFalse (fun hh => h (Except.ok.inj hh))
  | .error a, .error b =>
    if h : a = b then isTrue (h ▸ rfl) else isFalse (fun hh => h (Except.error.inj hh))
  | .ok _, .error _ => isFalse (fun hh => Except.noConfusion hh)
  | .error _, .ok _ => isFalse (fun hh => Except.noConfusion hh)

/-- Smallest exact decimal value at which CPython `float()` on a digit
token overflows: under round-to-nearest-even, a value at or above
`2^1024 - 2^970` (about `1.8e308`) has no finite double to round to, and
string conversion then returns `inf` (it does not raise). -/
def floatOverflowBound : ℚ :=
  Rat.divInt ((2 ^ 1024 - 2 ^ 970 : ℕ) : ℤ) 1

/-- A CPython float obtained from a `[0-9.]` token: such a token parses
to a finite double or overflows to positive infinity — never to NaN and
never to a negative or negative-infinite value, so those need no
representation here. -/
inductive PyFloatV where
  | finite (q : ℚ)
  | inf
deriving DecidableEq, Repr

/-- Overflow-aware model of `float()` on the third group: the
success/failure domain is exactly that of `pyFloat`; an accepted token
whose exact decimal value reaches `floatOverflowBound` converts to the
double `inf`, a smaller one stays finite (kept as its exact decimal
value; rounding to the nearest double is not modelled). -/
def pyFloatExt (s : List Char) : Option PyFloatV :=
  match pyFloat s with
  | none => none
  | some q => some (if floatOverflowBound ≤ q then PyFloatV.inf else PyFloatV.finite q)

/-- `lineResult` over the overflow-aware float model. -/
def lineResultExt (line : List Char) : Except String (Option (Nat × Nat × PyFloatV)) :=
  match searchPat line with
  | none => .ok none
  | some g =>
    match pyFloatExt g.g3 with
    | none => .error "ValueError: could not convert string to float"
    | some v => .ok (some (natOfDigits g.g1, natOfDigits g.g2, v))

/-- `parse_log_file` over the overflow-aware float model. -/
def parse_log_file_ext : List (List Char) → Except String (List Nat × List PyFloatV)
  | [] => .ok ([], [])
  | l :: ls =>
    match lineResultExt l with
    | .error e => .error e
    | .ok none => parse_log_file_ext ls
    | .ok (some (st, _tot, v)) =>
      match parse_log_file_ext ls with
      | .error e => .error e
      | .ok (ss, vs) => .ok (st :: ss, v :: vs)

/-! ## Structural lemmas about the matcher and the parser -/

theorem matchPat_g3 {s : List Char} {g : Groups} (h : matchPat s = some g) :
    g.g3 ≠ [] ∧ ∀ c ∈ g.g3, isNumDot c = true := by
  unfold matchPat at h
  split at h
  · cases h
  · try simp only [] at h
    split at h
    · cases h
    · split at h
      · cases h
      · try simp only [] at h
        split at h
        · cases h
        · split at h
          · cases h
          · split at h
            · cases h
            · try simp only [] at h
              split at h
              · cases h
              · obtain rfl := (Option.some.injEq _ _).mp h
                refine ⟨?_, ?_⟩
                · intro hnil
                  simp_all [List.isEmpty_iff]
                · intro c hc
                  exact List.mem_takeWhile_imp hc

theorem searchPos_spec {s : List Char} {i : Nat} {g : Groups}
    (h : searchPos s = some (i, g)) :
    matchPat (List.drop i s) = some g ∧ ∀ j, j < i → matchPat (List.drop j s) = none := by
  induction s generalizing i g with
  | nil =>
    unfold searchPos at h
    split at h
    · obtain ⟨rfl, rfl⟩ := Prod.mk.injEq .. ▸ (Option.some.injEq _ _).mp h
      refine ⟨by assumption, ?_⟩
      intro j hj
      omega
    · cases h
  | cons c rest ih =>
    unfold searchPos at h
    split at h
    · obtain ⟨rfl, rfl⟩ := Prod.mk.injEq .. ▸ (Option.some.injEq _ _).mp h
      refine ⟨by assumption, ?_⟩
      intro j hj
      omega
    · cases hs : searchPos rest with
      | none => rw [hs] at h; cases h
      | some p =>
        obtain ⟨i', g'⟩ := p
        rw [hs] at h
        simp only [Option.map] at h
        obtain ⟨rfl, rfl⟩ := Prod.mk.injEq .. ▸ (Option.some.injEq _ _).mp h
        obtain ⟨h1, h2⟩ := ih hs
        refine ⟨h1, ?_⟩
        intro j hj
        cases j with
        | zero => simpa using (by assumption : matchPat (c :: rest) = none)
        | succ k => exact h2 k (by omega)

theorem parse_ok_eq {lines : List (List Char)} {ss : List Nat} {vs : List ℚ}
    (h : parse_log_file lines = .ok (ss, vs)) :
    ss = lines.filterMap stepOf ∧ vs = lines.filterMap lossOf := by
  induction lines generalizing ss vs with
  | nil =>
    unfold parse_log_file at h
    simp only [Except.ok.injEq, Prod.mk.injEq] at h
    simp [← h.1, ← h.2]
  | cons l ls ih =>
    unfold parse_log_file at h
    cases hl : lineResult l with
    | error e => rw [hl] at h; cases h
    | ok o =>
      rw [hl] at h
      cases o with
      | none =>
        obtain ⟨h1, h2⟩ := ih h
        constructor
        · simp [List.filterMap_cons, stepOf, hl, h1]
        · simp [List.filterMap_cons, lossOf, hl, h2]
      | some r =>
        obtain ⟨st, tot, v⟩ := r
        cases hp : parse_log_file ls with
        | error e => rw [hp] at h; cases h
        | ok p =>
          obtain ⟨ss', vs'⟩ := p
          rw [hp] at h
          simp only [Except.ok.injEq, Prod.mk.injEq] at h
          obtain ⟨h1, h2⟩ := ih hp
          constructor
          · simp [List.filterMap_cons, stepOf, hl, ← h.1, h1]
          · simp [List.filterMap_cons, lossOf, hl, ← h.2, h2]

theorem parse_append {xs ys : List (List Char)}
    {a b : List Nat × List ℚ}
    (ha : parse_log_file xs = .ok a) (hb : parse_log_file ys = .ok b) :
    parse_log_file (xs ++ ys) = .ok (a.1 ++ b.1, a.2 ++ b.2) := by
  induction xs generalizing a with
  | nil =>
    unfold parse_log_file at ha
    simp only [Except.ok.injEq] at ha
    simpa [← ha] using hb
  | cons l ls ih =>
    unfold parse_log_file at ha
    cases hl : lineResult l with
    | error e => rw [hl] at ha; cases ha
    | ok o =>
      rw [hl] at ha
      cases o with
      | none =>
        have hr := ih ha
        simp [parse_log_file, hl, hr]
      | some r =>
        obtain ⟨st, tot, v⟩ := r
        cases hp : parse_log_file ls with
        | error e => rw [hp] at ha; cases ha
        | ok p =>
          rw [hp] at ha
          simp only [Except.ok.injEq] at ha
          have hr := ih hp
          simp [parse_log_file, hl, hr, ← ha]

theorem parse_error_of_mem {lines : List (List Char)} {l : List Char}
    (hm : l ∈ lines) (hl : exceptOk (lineResult l) = false) :
    exceptOk (parse_log_file lines) = false := by
  induction lines with
  | nil => cases hm
  | cons x xs ih =>
    unfold parse_log_file
    rcases List.mem_cons.mp hm with rfl | hmem
    · cases he : lineResult l with
      | error e => simp [exceptOk]
      | ok o => rw [he] at hl; simp [exceptOk] at hl
    · cases he : lineResult x with
      | error e => simp [exceptOk]
      | ok o =>
        cases o with
        | none => exact ih hmem
        | some r =>
          obtain ⟨st, tot, v⟩ := r
          cases hp : parse_log_file xs with
          | error e => simp [exceptOk]
          | ok p =>
            have := ih hmem
            rw [hp] at this
            simp [exceptOk] at this

/-- `decValue` is the integer part plus the fractional part scaled down
by the length of the fractional digit string. -/
theorem decValue_eq (s : List Char) :
    decValue s = (natOfDigits (s.takeWhile (fun c => c ≠ '.')) : ℚ) +
      (natOfDigits ((s.dropWhile (fun c => c ≠ '.')).drop 1) : ℚ) /
        (10 : ℚ) ^ ((s.dropWhile (fun c => c ≠ '.')).drop 1).length := by
  unfold decValue
  rw [Rat.divInt_eq_div]
  push_cast
  field_simp

theorem decValue_nonneg (s : List Char) : 0 ≤ decValue s := by
  rw [decValue_eq]
  positivity

theorem pyFloat_some {s : List Char} {v : ℚ} (h : pyFloat s = some v) :
    v = decValue s := by
  unfold pyFloat at h
  split at h
  · exact ((Option.some.injEq _ _).mp h).symm
  · cases h

theorem lossOf_nonneg {l : List Char} {v : ℚ} (h : lossOf l = some v) :
    0 ≤ v := by
  unfold lossOf at h
  split at h
  · next st tot v' heq =>
    unfold lineResult at heq
    split at heq
    · cases heq
    · split at heq
      · cases heq
      · next g hg v'' hf =>
        simp only [Except.ok.injEq, Option.some.injEq] at heq h
        obtain rfl := h
        obtain ⟨_, _, rfl⟩ := Prod.mk.injEq .. ▸ heq
        exact (pyFloat_some hf) ▸ decValue_nonneg _
  · cases h

theorem lineResultExt_loss {l : List Char} {st tot : Nat} {v : PyFloatV}
    (h : lineResultExt l = .ok (some (st, tot, v))) :
    v = PyFloatV.inf ∨ ∃ q, v = PyFloatV.finite q ∧ 0 ≤ q := by
  cases hg : searchPat l with
  | none => simp [lineResultExt, hg] at h
  | some g =>
    cases hq : pyFloatExt g.g3 with
    | none => simp [lineResultExt, hg, hq] at h
    | some v' =>
      simp only [lineResultExt, hg, hq, Except.ok.injEq, Option.some.injEq,
        Prod.mk.injEq] at h
      obtain ⟨-, -, rfl⟩ := h
      cases hp : pyFloat g.g3 with
      | none => simp [pyFloatExt, hp] at hq
      | some q =>
        simp only [pyFloatExt, hp, Option.some.injEq] at hq
        rw [← hq]
        split
        · exact Or.inl rfl
        · exact Or.inr ⟨q, rfl, (pyFloat_some hp) ▸ decValue_nonneg _⟩

theorem parse_ext_losses {lines : List (List Char)} {ss : List Nat} {vs : List PyFloatV}
    (h : parse_log_file_ext lines = .ok (ss, vs)) :
    ∀ v ∈ vs, v = PyFloatV.inf ∨ ∃ q, v = PyFloatV.finite q ∧ 0 ≤ q := by
  induction lines generalizing ss vs with
  | nil =>
    unfold parse_log_file_ext at h
    simp only [Except.ok.injEq, Prod.mk.injEq] at h
    rw [← h.2]
    intro v hv
    cases hv
  | cons l ls ih =>
    unfold parse_log_file_ext at h
    cases hl : lineResultExt l with
    | error e => rw [hl] at h; cases h
    | ok o =>
      rw [hl] at h
      cases o with
      | none => exact ih h
      | some r =>
        obtain ⟨st, tot, v⟩ := r
        cases hp : parse_log_file_ext ls with
        | error e => rw [hp] at h; cases h
        | ok p =>
          obtain ⟨ss', vs'⟩ := p
          rw [hp] at h
          simp only [Except.ok.injEq, Prod.mk.injEq] at h
          intro w hw
          rw [← h.2] at hw
          rcases List.mem_cons.mp hw with rfl | hmem
          · exact lineResultExt_loss hl
          · exact ih hp w hmem

/-! ## Claims -/

/-- C1, counterexample: the pattern's third character class is `[\d.]+`,
so the extractor accepts a `val_loss` token with more than one decimal
point: on `step:1/2 val_loss:1.2.3` the match succeeds and the accepted
token `1.2.3` contains two dots. -/
theorem C1_counterexample :
    searchPat ("step:1/2 val_loss:1.2.3".toList) =
      some ⟨['1'], ['2'], ['1', '.', '2', '.', '3']⟩ ∧
    List.count '.' ['1', '.', '2', '.', '3'] = 2 := by
  constructor
  · decide
  · decide

/-- C1, amended: the `val_loss` token accepted by the extractor's pattern
is a nonempty string over digits and the decimal point only — it never
contains an exponent marker or a sign — but it may contain more than one
decimal point. -/
theorem C1_accepted_token_class {line : List Char} {g : Groups}
    (h : searchPat line = some g) :
    g.g3 ≠ [] ∧ ∀ c ∈ g.g3,
      isNumDot c = true ∧ c ≠ 'e' ∧ c ≠ 'E' ∧ c ≠ '+' ∧ c ≠ '-' := by
  unfold searchPat at h
  cases hs : searchPos line with
  | none => rw [hs] at h; cases h
  | some p =>
    obtain ⟨i, g'⟩ := p
    rw [hs] at h
    simp only [Option.map, Option.some.injEq] at h
    subst h
    obtain ⟨hm, _⟩ := searchPos_spec hs
    obtain ⟨hne, hcl⟩ := matchPat_g3 hm
    refine ⟨hne, fun c hc => ?_⟩
    have hnd := hcl c hc
    refine ⟨hnd, ?_, ?_, ?_, ?_⟩ <;>
      { intro heq; rw [heq] at hnd; exact absurd hnd (by decide) }

/-- C1, witness for the amended theorem at a concrete matching line. -/
theorem C1_witness :
    (Groups.mk ['3'] ['4'] ['2', '.', '5']).g3 ≠ [] ∧
    ∀ c ∈ (Groups.mk ['3'] ['4'] ['2', '.', '5']).g3,
      isNumDot c = true ∧ c ≠ 'e' ∧ c ≠ 'E' ∧ c ≠ '+' ∧ c ≠ '-' :=
  C1_accepted_token_class
    (by decide : searchPat ("step:3/4 val_loss:2.5".toList) =
      some ⟨['3'], ['4'], ['2', '.', '5']⟩)

/-- C2: when some line structurally matches the pattern but its
`val_loss` token does not parse as a float, that line's iteration raises
`ValueError` (no default value, no record for the line) and the whole
extraction returns no result at all. -/
theorem C2_malformed_aborts {lines : List (List Char)} {l : List Char} {g : Groups}
    (hm : l ∈ lines) (hs : searchPat l = some g) (hf : pyFloat g.g3 = none) :
    lineResult l = .error "ValueError: could not convert string to float" ∧
    exceptOk (parse_log_file lines) = false := by
  have hl : lineResult l = .error "ValueError: could not convert string to float" := by
    simp only [lineResult, hs, hf]
  exact ⟨hl, parse_error_of_mem hm (by rw [hl]; rfl)⟩

/-- C2, witness: a log whose only line matches structurally with the
dots-only token `..`; the extraction yields an error, not a result. -/
theorem C2_witness :
    lineResult ("step:1/2 val_loss:..".toList) =
      .error "ValueError: could not convert string to float" ∧
    exceptOk (parse_log_file [("step:1/2 val_loss:..".toList)]) = false :=
  C2_malformed_aborts (List.mem_singleton.mpr rfl)
    (by decide : searchPat ("step:1/2 val_loss:..".toList) =
      some ⟨['1'], ['2'], ['.', '.']⟩)
    (by decide)

/-- Per-line step and loss extraction succeed together, so the two
filtered sequences have the same length. -/
theorem filterMap_step_loss_length (lines : List (List Char)) :
    (lines.filterMap stepOf).length = (lines.filterMap lossOf).length := by
  induction lines with
  | nil => rfl
  | cons l ls ih =>
    cases hl : lineResult l with
    | error e => simp [List.filterMap_cons, stepOf, lossOf, hl, ih]
    | ok o =>
      cases o with
      | none => simp [List.filterMap_cons, stepOf, lossOf, hl, ih]
      | some r =>
        obtain ⟨st, tot, v⟩ := r
        simp [List.filterMap_cons, stepOf, lossOf, hl, ih]

/-- C3: whenever the extraction succeeds, the two returned sequences have
the same length, and one is empty exactly when the other is. -/
theorem C3_alignment {lines : List (List Char)} {ss : List Nat} {vs : List ℚ}
    (h : parse_log_file lines = .ok (ss, vs)) :
    ss.length = vs.length ∧ (ss = [] ↔ vs = []) := by
  obtain ⟨h1, h2⟩ := parse_ok_eq h
  have hlen : ss.length = vs.length := by
    rw [h1, h2]
    exact filterMap_step_loss_length lines
  refine ⟨hlen, ?_⟩
  constructor
  · intro he
    rw [he] at hlen
    exact List.length_eq_zero.mp hlen.symm
  · intro he
    rw [he] at hlen
    exact List.length_eq_zero.mp hlen

/-- C3, witness at a concrete two-line log with one matching line. -/
theorem C3_witness :
    List.length [5] = List.length [Rat.divInt 3 2] ∧
    ([5] = ([] : List Nat) ↔ [Rat.divInt 3 2] = []) :=
  C3_alignment
    (by decide : parse_log_file
      ["step:5/10 val_loss:1.5".toList, "junk".toList] = .ok ([5], [Rat.divInt 3 2]))

/-- C4: a successful extraction is exactly the in-order filter-map of the
per-line extraction (so matching lines contribute their record in
encounter order, non-matching lines contribute nothing, and no sorting or
deduplication happens); extraction distributes over concatenation of
sources; and a line with no pattern match yields a silent skip, never an
error. -/
theorem C4_order_and_selectivity :
    (∀ lines ss vs, parse_log_file lines = .ok (ss, vs) →
      ss = lines.filterMap stepOf ∧ vs = lines.filterMap lossOf) ∧
    (∀ xs ys a b, parse_log_file xs = .ok a → parse_log_file ys = .ok b →
      parse_log_file (xs ++ ys) = .ok (a.1 ++ b.1, a.2 ++ b.2)) ∧
    (∀ l, searchPat l = none → lineResult l = .ok none) :=
  ⟨fun _ _ _ h => parse_ok_eq h,
   fun _ _ _ _ ha hb => parse_append ha hb,
   fun _ h => by simp only [lineResult, h]⟩

/-- C4, witness: a three-line log whose middle line does not match. -/
theorem C4_witness :
    [10, 20] = List.filterMap stepOf
      ["step:10/100 val_loss:2.5".toList, "junk".toList,
       "step:20/100 val_loss:2.1".toList] ∧
    [Rat.divInt 5 2, Rat.divInt 21 10] = List.filterMap lossOf
      ["step:10/100 val_loss:2.5".toList, "junk".toList,
       "step:20/100 val_loss:2.1".toList] :=
  C4_order_and_selectivity.1
    ["step:10/100 val_loss:2.5".toList, "junk".toList,
     "step:20/100 val_loss:2.1".toList]
    [10, 20] [Rat.divInt 5 2, Rat.divInt 21 10] (by decide)

/-- C5: a source with no matching lines (in particular an empty source)
extracts to two empty sequences, and the renderer on an empty series
prints the no-data message and returns without drawing a chart, without
writing a file and without opening a display. -/
theorem C5_empty_input {lines : List (List Char)}
    (h : ∀ l ∈ lines, searchPat l = none) :
    parse_log_file lines = .ok ([], []) ∧
    ∀ out t, plot_loss [] [] out t =
      { printed := ["No loss data found in log file!"]
        chart := none, savedTo := none, displayed := false } := by
  constructor
  · induction lines with
    | nil => rfl
    | cons l ls ih =>
      have hl : lineResult l = .ok none := by
        simp only [lineResult, h l (List.mem_cons_self l ls)]
      have hr := ih (fun x hx => h x (List.mem_cons_of_mem l hx))
      unfold parse_log_file
      rw [hl, hr]
  · intro out t
    simp [plot_loss]

/-- C5, witness: a two-line source where no line matches. -/
theorem C5_witness :
    parse_log_file ["epoch complete, no metrics".toList, "".toList] = .ok ([], []) ∧
    ∀ out t, plot_loss [] [] out t =
      { printed := ["No loss data found in log file!"]
        chart := none, savedTo := none, displayed := false } :=
  C5_empty_input (by decide)

/-- C6: a missing log path gives exit status 1 with a diagnostic naming
the path; an existing path whose extraction yields zero records gives
exit status 1 with diagnostics and no renderer call; an extraction with
at least one record reaches the renderer, produces a chart and gives
exit status 0. -/
theorem C6_exit_codes :
    (∀ p lines out t, main_run false p lines out t =
      .ok { exitCode := 1
            printed := ["Error: Log file not found: " ++ p]
            summary := none, render := none }) ∧
    (∀ p lines out t vs, parse_log_file lines = .ok ([], vs) →
      main_run true p lines out t =
        .ok { exitCode := 1
              printed := ["Parsing log file: " ++ p,
                          "No validation loss data found in the log file.",
                          "Make sure the training has run validation steps."]
              summary := none, render := none }) ∧
    (∀ p lines out t st ss vs, parse_log_file lines = .ok (st :: ss, vs) →
      ∃ m, main_run true p lines out t = .ok m ∧ m.exitCode = 0 ∧
        ∃ r, m.render = some r ∧ r.chart.isSome = true) := by
  refine ⟨?_, ?_, ?_⟩
  · intro p lines out t
    simp [main_run]
  · intro p lines out t vs h
    simp [main_run, h]
  · intro p lines out t st ss vs h
    have hm : main_run true p lines out t = .ok
        { exitCode := 0
          printed := ["Parsing log file: " ++ p,
                      "Found " ++ toString (st :: ss).length ++ " validation loss measurements"]
          summary := summaryStats (st :: ss) vs
          render := some (plot_loss (st :: ss) vs out t) } := by
      simp [main_run, h]
    refine ⟨_, hm, rfl, plot_loss (st :: ss) vs out t, rfl, ?_⟩
    cases out <;> simp [plot_loss]

/-- C6, witness: the three exit paths at concrete inputs. -/
theorem C6_witness :
    (main_run false "missing.txt" [] none none =
      .ok { exitCode := 1
            printed := ["Error: Log file not found: " ++ "missing.txt"]
            summary := none, render := none }) ∧
    (main_run true "empty.txt" ["junk".toList] none none =
      .ok { exitCode := 1
            printed := ["Parsing log file: " ++ "empty.txt",
                        "No validation loss data found in the log file.",
                        "Make sure the training has run validation steps."]
            summary := none, render := none }) ∧
    (∃ m, main_run true "run.txt" ["step:1/2 val_loss:3.5".toList] (some "out.png") none =
      .ok m ∧ m.exitCode = 0 ∧ ∃ r, m.render = some r ∧ r.chart.isSome = true) :=
  ⟨C6_exit_codes.1 "missing.txt" [] none none,
   C6_exit_codes.2.1 "empty.txt" ["junk".toList] none none [] (by decide),
   C6_exit_codes.2.2 "run.txt" ["step:1/2 val_loss:3.5".toList] (some "out.png") none
     1 [] [Rat.divInt 7 2] (by decide)⟩

set_option maxRecDepth 40000 in
/-- C7, counterexample: the extracted loss is not always finite.  The
class `[\d.]+` accepts tokens of any length, and CPython `float()` on
`'9' * 400` (decimal value far above `floatOverflowBound`) returns
`inf`, so the extractor appends an infinite loss for this line. -/
theorem C7_counterexample :
    parse_log_file_ext ["step:1/2 val_loss:".toList ++ List.replicate 400 '9'] =
      .ok ([1], [PyFloatV.inf]) := by
  decide

/-- C7, amended: every extracted record is a non-negative integer step
paired with a validation loss that is never negative and never NaN; the
loss need not be finite, however — it is either the double `inf` (when
the token's decimal value reaches the overflow bound) or a non-negative
finite value. -/
theorem C7_record_bounds {lines : List (List Char)} {ss : List Nat} {vs : List PyFloatV}
    (h : parse_log_file_ext lines = .ok (ss, vs)) :
    (∀ st ∈ ss, 0 ≤ (st : ℤ)) ∧
    ∀ v ∈ vs, v = PyFloatV.inf ∨ ∃ q, v = PyFloatV.finite q ∧ 0 ≤ q :=
  ⟨fun st _ => by positivity, parse_ext_losses h⟩

set_option maxRecDepth 40000 in
/-- C7, witness at a concrete one-line log with an in-range loss. -/
theorem C7_witness :
    (∀ st ∈ ([100] : List Nat), 0 ≤ (st : ℤ)) ∧
    ∀ v ∈ [PyFloatV.finite (Rat.divInt 1466 625)],
      v = PyFloatV.inf ∨ ∃ q, v = PyFloatV.finite q ∧ 0 ≤ q :=
  C7_record_bounds
    (by decide : parse_log_file_ext ["step:100/1000 val_loss:2.3456 lr:0.001".toList] =
      .ok ([100], [PyFloatV.finite (Rat.divInt 1466 625)]))

/-- C8: on the extracted series `steps = [10, 20, 30]` and
`losses = [2.5, 2.1, 1.9]` the orchestration's summary statistics are
record count 3, min step 10, max step 30, min loss 1.9 and max loss 2.5
(here `2.5 = 5/2`, `2.1 = 21/10`, `1.9 = 19/10`); a log producing exactly
that series reports exactly that summary. -/
theorem C8_summary_stats :
    mainSummary (main_run true "log.txt"
      ["step:10/100 val_loss:2.5".toList,
       "step:20/100 val_loss:2.1".toList,
       "step:30/100 val_loss:1.9".toList] none none) =
      some ⟨3, 10, 30, Rat.divInt 19 10, Rat.divInt 5 2⟩ ∧
    summaryStats [10, 20, 30] [Rat.divInt 5 2, Rat.divInt 21 10, Rat.divInt 19 10] =
      some ⟨3, 10, 30, Rat.divInt 19 10, Rat.divInt 5 2⟩ := by
  constructor
  · decide
  · decide

/-- C9: `re.search` yields at most one match per line, at the leftmost
position where the pattern fits — every earlier start position fails —
and a one-line source therefore contributes at most one record. -/
theorem C9_leftmost {line : List Char} {i : Nat} {g : Groups}
    (h : searchPos line = some (i, g)) :
    (matchPat (List.drop i line) = some g ∧
     ∀ j, j < i → matchPat (List.drop j line) = none) ∧
    ∀ ss vs, parse_log_file [line] = .ok (ss, vs) → ss.length ≤ 1 := by
  refine ⟨searchPos_spec h, ?_⟩
  intro ss vs hp
  obtain ⟨h1, _⟩ := parse_ok_eq hp
  rw [h1]
  cases hs : stepOf line <;>
    simp [List.filterMap_cons, List.filterMap_nil, hs]

/-- C9, witness: a line holding two occurrences of the pattern; the
search lands on the first one (offset 3), all earlier offsets fail, and
the line yields one record. -/
theorem C9_witness :
    (matchPat (List.drop 3 "xx step:1/2 val_loss:3.5 step:7/8 val_loss:9.9".toList) =
      some ⟨['1'], ['2'], ['3', '.', '5']⟩ ∧
     ∀ j, j < 3 →
      matchPat (List.drop j "xx step:1/2 val_loss:3.5 step:7/8 val_loss:9.9".toList) = none) ∧
    ∀ ss vs, parse_log_file ["xx step:1/2 val_loss:3.5 step:7/8 val_loss:9.9".toList] =
      .ok (ss, vs) → ss.length ≤ 1 :=
  C9_leftmost (by decide)

/-- C10: giving the renderer the empty string as a title is exactly the
same as giving no title: Python's `title or default` is falsy on `""`,
so the default title is used. -/
theorem C10_empty_title :
    (∀ steps vs out, plot_loss steps vs out (some "") = plot_loss steps vs out none) ∧
    pyOrStr (some "") defaultTitle = defaultTitle := by
  constructor
  · intro steps vs out
    cases steps <;> cases out <;> simp [plot_loss, pyOrStr]
  · rfl
